import Mathlib

/-!
Verification of the quantitative analytics and validation layer of the
stocky-ahh stock-dashboard repository.

The TypeScript source is shallowly embedded in Lean: JavaScript numbers are
modelled as exact rationals (and as reals where `Math.sqrt` occurs), maps as
functions to `Option`, JSON values as an inductive type, and fallible
functions as `Option`-returning functions.  Each embedded definition mirrors
one function of the source; theorems at the end of the file settle the
specification claims against these definitions.
-/

namespace Stocky

/-- JavaScript `Math.round(x * 100) / 100` (round half toward positive
infinity to 2 decimal places) on exact rationals. -/
def round2q (q : ℚ) : ℚ :=
  (⌊q * 100 + 1 / 2⌋ : ℚ) / 100

/-! ## Input validation (`src/lib/validation.ts`) -/

/-- A character of the allowed symbol alphabet, the complement of the class
stripped by `input.replace(/[^a-zA-Z0-9.-]/g, "")`.  Written over code
points: 97..122 is a..z, 65..90 is A..Z, 48..57 is 0..9, 46 is the dot,
45 is the hyphen. -/
def allowedChar (c : Char) : Bool :=
  (97 ≤ c.toNat && c.toNat ≤ 122) ||
  (65 ≤ c.toNat && c.toNat ≤ 90) ||
  (48 ≤ c.toNat && c.toNat ≤ 57) ||
  c.toNat == 46 ||
  c.toNat == 45

/-- JavaScript `toUpperCase` on one character, restricted to the ASCII range
(the only range that can survive the preceding character filter). -/
def upperChar (c : Char) : Char :=
  if 97 ≤ c.toNat ∧ c.toNat ≤ 122 then Char.ofNat (c.toNat - 32) else c

/-- Whitespace as removed by JavaScript `String.prototype.trim` (space, tab,
line feed, vertical tab, form feed, carriage return; the remaining Unicode
space code points are all above 127 and cannot occur after the filter). -/
def isWsChar (c : Char) : Bool :=
  c.toNat == 32 || c.toNat == 9 || c.toNat == 10 ||
  c.toNat == 11 || c.toNat == 12 || c.toNat == 13

/-- JavaScript `String.prototype.trim` on a character list. -/
def trimList (l : List Char) : List Char :=
  ((l.dropWhile isWsChar).reverse.dropWhile isWsChar).reverse

/-- Embedding of `validateSymbol` from `src/lib/validation.ts`: strip the
disallowed characters, uppercase, trim, then accept only lengths 1..10.
The leading emptiness test embeds the JavaScript falsiness check
`if (!input ...) return null`. -/
def validateSymbol (input : String) : Option String :=
  if input = "" then none
  else
    let sanitized := trimList ((input.data.filter allowedChar).map upperChar)
    if sanitized.length = 0 ∨ 10 < sanitized.length then none
    else some (String.mk sanitized)

/-- Embedding of `validateAmount` from `src/lib/validation.ts`.  The source
accepts a string or a number and first runs `parseFloat` on strings; the
argument here is the outcome of that step, with `none` standing for `NaN`
(an unparsable string or a `NaN` number). -/
def validateAmount (input : Option ℚ) : ℚ :=
  match input with
  | none => 0
  | some num => if num < 0 ∨ 999999999 < num then 0 else round2q num

/-! ## RSI (`src/app/api/stock/[symbol]/indicators/route.ts`) -/

/-- RSI signal labels of the indicators route. -/
inductive Signal where
  | Overbought
  | Bullish
  | Neutral
  | Bearish
  | Oversold
deriving DecidableEq

/-- First differences `changes[i-1] = closePrices[i] - closePrices[i-1]`. -/
def priceChanges (closePrices : List ℚ) : List ℚ :=
  List.zipWith (fun a b => b - a) closePrices closePrices.tail

/-- `changes.map(c => c > 0 ? c : 0)`. -/
def gainsOf (changes : List ℚ) : List ℚ :=
  changes.map (fun c => if 0 < c then c else 0)

/-- `changes.map(c => c < 0 ? Math.abs(c) : 0)`. -/
def lossesOf (changes : List ℚ) : List ℚ :=
  changes.map (fun c => if c < 0 then |c| else 0)

/-- One step of the simultaneous update of `(avgGain, avgLoss)` in the
`for`-loop of `calculateRSI`: both averages receive
`avg = (avg * (period - 1) + new) / period`. -/
def wilderStep (period : ℕ) (p : ℚ × ℚ) (gl : ℚ × ℚ) : ℚ × ℚ :=
  ((p.1 * ((period : ℚ) - 1) + gl.1) / period,
   (p.2 * ((period : ℚ) - 1) + gl.2) / period)

/-- Embedding of `calculateRSI` from the indicators route: guard on the
series length, split first differences into gains and losses, seed the
averages with the mean of the first `period` entries, run the smoothing
loop over the remaining entries, then form the RSI.  `none` embeds the
`null` return for short inputs. -/
def calculateRSI (closePrices : List ℚ) (period : ℕ) : Option ℚ :=
  if closePrices.length < period + 1 then none
  else
    let changes := priceChanges closePrices
    let gains := gainsOf changes
    let losses := lossesOf changes
    let avgGain0 := (gains.take period).sum / period
    let avgLoss0 := (losses.take period).sum / period
    let avgs := (List.zip (gains.drop period) (losses.drop period)).foldl
      (wilderStep period) (avgGain0, avgLoss0)
    if avgs.2 = 0 then some 100
    else some (round2q (100 - 100 / (1 + avgs.1 / avgs.2)))

/-- Embedding of `getRSISignal` from the indicators route, with the branches
in source order. -/
def getRSISignal (rsi : ℚ) : Signal :=
  if 70 ≤ rsi then .Overbought
  else if 60 ≤ rsi then .Bullish
  else if rsi ≤ 30 then .Oversold
  else if rsi ≤ 40 then .Bearish
  else .Neutral

/-- Specification-side simple mean of a list. -/
def simpleMean (xs : List ℚ) : ℚ := xs.sum / xs.length

/-- Specification-side Wilder smoothing of a single running average,
folded over a list of new values. -/
def wilderSmooth (period : ℕ) (seed : ℚ) (xs : List ℚ) : ℚ :=
  xs.foldl (fun avg x => (avg * ((period : ℚ) - 1) + x) / period) seed

/-- Specification-side final smoothed average: seed with the simple mean of
the first `period` values, then apply Wilder smoothing to the rest. -/
def specAvg (period : ℕ) (xs : List ℚ) : ℚ :=
  wilderSmooth period (simpleMean (xs.take period)) (xs.drop period)

/-! ## Sharpe ratio and trend (`src/app/api/stock/[symbol]/route.ts`) -/

/-- JavaScript `Math.round(x * 100) / 100` on reals, for the code paths that
pass through `Math.sqrt`. -/
noncomputable def round2r (x : ℝ) : ℝ :=
  (⌊x * 100 + 1 / 2⌋ : ℝ) / 100

/-- Daily returns `(prices[i] - prices[i-1]) / prices[i-1]`. -/
noncomputable def dailyReturns (prices : List ℝ) : List ℝ :=
  List.zipWith (fun a b => (b - a) / a) prices prices.tail

/-- Embedding of `calculateSharpeRatio` from the stock route: short series
and zero standard deviation give 0; otherwise the mean excess return over
the constant daily risk-free rate 0.0002, divided by the population standard
deviation and annualized by `sqrt 252`, rounded to 2 decimals. -/
noncomputable def calculateSharpeRatio (prices : List ℝ) : ℝ :=
  if prices.length < 2 then 0
  else
    let returns := dailyReturns prices
    if returns.length = 0 then 0
    else
      let avgReturn := returns.sum / (returns.length : ℝ)
      let variance := (returns.map (fun r => (r - avgReturn) ^ 2)).sum / (returns.length : ℝ)
      let stdDev := Real.sqrt variance
      if stdDev = 0 then 0
      else round2r ((avgReturn - 0.0002) / stdDev * Real.sqrt 252)

/-- Trend labels of the stock route. -/
inductive Trend where
  | bullish
  | bearish
  | neutral
deriving DecidableEq

/-- Embedding of `determineTrend` from the stock route. -/
noncomputable def determineTrend (sharpeRatio : ℝ) : Trend :=
  if 0.5 < sharpeRatio then .bullish
  else if sharpeRatio < 0 then .bearish
  else .neutral

/-- Specification-side mean of a list of reals. -/
noncomputable def specMean (xs : List ℝ) : ℝ := xs.sum / (xs.length : ℝ)

/-- Specification-side population variance (divide by N, not N - 1). -/
noncomputable def popVariance (xs : List ℝ) : ℝ :=
  (xs.map (fun r => (r - specMean xs) ^ 2)).sum / (xs.length : ℝ)

/-- Specification-side population standard deviation. -/
noncomputable def popStdDev (xs : List ℝ) : ℝ := Real.sqrt (popVariance xs)

/-! ## Quote construction (`src/app/api/stock/[symbol]/route.ts`) -/

/-- The fields of a `StockData` record that the §3 Quote invariant speaks
about; the remaining source fields (day range, volume, OHLC bars) play no
role in any claim. -/
structure StockData where
  symbol : String
  name : String
  currentPrice : ℝ
  previousClose : ℝ
  change : ℝ
  changePercent : ℝ
  sharpeRatio : ℝ
  trend : Trend

/-- Embedding of the `StockData` construction shared by the provider path
(lines building `stockData` in `GET`) and by `generateDemoData`: from the
raw current price, raw previous close and the close-price series it computes
`change = currentPrice - previousClose`,
`changePercent = change / previousClose * 100`, the Sharpe ratio, rounds
each monetary field to 2 decimals independently, and labels the trend from
the Sharpe ratio. -/
noncomputable def buildStockData (symbol name : String)
    (currentPrice previousClose : ℝ) (closePrices : List ℝ) : StockData :=
  let change := currentPrice - previousClose
  let changePercent := change / previousClose * 100
  let sharpeRatio := calculateSharpeRatio closePrices
  { symbol := symbol
    name := name
    currentPrice := round2r currentPrice
    previousClose := round2r previousClose
    change := round2r change
    changePercent := round2r changePercent
    sharpeRatio := sharpeRatio
    trend := determineTrend sharpeRatio }

/-- Embedding of `generateDemoData`, parameterized by the 5-bar random
close series that the source draws from `Math.random`: the current price is
the last close, the previous close is the next-to-last close — with the
JavaScript `|| currentPrice` fallback for a missing or zero entry — and the
record fields are then built exactly as in the provider path. -/
noncomputable def generateDemoData (symbol : String) (prices : List ℝ) :
    StockData :=
  let upperSym := String.mk (symbol.data.map upperChar)
  let currentPrice := prices.getLast?.getD 0
  let previousClose :=
    if 2 ≤ prices.length then
      if prices.getD (prices.length - 2) 0 = 0 then currentPrice
      else prices.getD (prices.length - 2) 0
    else currentPrice
  buildStockData upperSym (upperSym ++ " Inc. (Demo)")
    currentPrice previousClose prices

/-! ## Rate limiter (`src/app/api/stock/[symbol]/route.ts`, lines 5-25;
the news route repeats the same code) -/

/-- One entry of `rateLimitMap`. -/
structure RateEntry where
  count : ℕ
  resetTime : ℕ
deriving DecidableEq

/-- The `rateLimitMap`, as a function from client identifiers to optional
entries; times are epoch milliseconds. -/
def RateMap : Type := String → Option RateEntry

/-- `rateLimitMap.set(ip, e)`. -/
def rateMapSet (m : RateMap) (ip : String) (e : RateEntry) : RateMap :=
  fun k => if k = ip then some e else m k

/-- The map with no entries. -/
def rateMapEmpty : RateMap := fun _ => none

/-- `RATE_LIMIT` of the stock and news routes. -/
def rateLimitMax : ℕ := 30

/-- `RATE_WINDOW` of the stock and news routes (one minute in ms). -/
def rateWindow : ℕ := 60000

/-- Embedding of `checkRateLimit`: the current time is passed explicitly in
place of `Date.now()`; the result is the admission decision together with
the updated map. -/
def checkRateLimit (m : RateMap) (ip : String) (now : ℕ) : Bool × RateMap :=
  match m ip with
  | none => (true, rateMapSet m ip ⟨1, now + rateWindow⟩)
  | some entry =>
    if entry.resetTime < now then
      (true, rateMapSet m ip ⟨1, now + rateWindow⟩)
    else if rateLimitMax ≤ entry.count then
      (false, m)
    else
      (true, rateMapSet m ip ⟨entry.count + 1, entry.resetTime⟩)

/-- Run a sequence of calls from one client at the given times, collecting
the admission decisions and the final map. -/
def runCalls (m : RateMap) (ip : String) : List ℕ → List Bool × RateMap
  | [] => ([], m)
  | t :: ts =>
    let r := checkRateLimit m ip t
    let rest := runCalls r.2 ip ts
    (r.1 :: rest.1, rest.2)

/-! ## Response cache (`getCachedData`/`setCachedData` of the AI route;
the news route inlines the same pattern) -/

/-- A per-class cache map: key to stored data and write timestamp. -/
def Cache (α : Type) : Type := String → Option (α × ℕ)

/-- The empty cache. -/
def cacheEmpty (α : Type) : Cache α := fun _ => none

/-- Embedding of `getCachedData`: return the stored data only when the entry
exists and `now - timestamp < maxAge`. -/
def getCachedData {α : Type} (c : Cache α) (key : String) (maxAge now : ℕ) :
    Option α :=
  match c key with
  | some (data, ts) => if now - ts < maxAge then some data else none
  | none => none

/-- Embedding of `setCachedData`: unconditionally overwrite the entry with
the new data and a fresh timestamp. -/
def setCachedData {α : Type} (c : Cache α) (key : String) (data : α)
    (now : ℕ) : Cache α :=
  fun k => if k = key then some (data, now) else c k

/-- The cache-before-fetch pattern of the adapters (news route `GET`): on a
hit return the cached value, otherwise fetch the upstream value and store
it.  The Boolean records whether an upstream request was issued. -/
def cachedFetch {α : Type} (c : Cache α) (key : String) (ttl now : ℕ)
    (upstream : α) : α × Bool × Cache α :=
  match getCachedData c key ttl now with
  | some v => (v, false, c)
  | none => (upstream, true, setCachedData c key upstream now)

/-! ## AI advisory reply validation (`src/app/api/ai/route.ts`, POST) -/

/-- JSON values, as produced by `JSON.parse`; numbers are exact rationals. -/
inductive Json where
  | null
  | bool (b : Bool)
  | num (q : ℚ)
  | str (s : String)
  | arr (elems : List Json)
  | obj (fields : List (String × Json))

/-- JavaScript property access `j.k` on a parsed JSON value: defined only on
objects; `none` embeds `undefined`. -/
def Json.get (j : Json) (key : String) : Option Json :=
  match j with
  | .obj fields => fields.lookup key
  | _ => none

/-- JavaScript truthiness of a possibly-undefined JSON value, as tested by
`!parsedAnalysis.prediction` and the two companion checks. -/
def truthy : Option Json → Bool
  | none => false
  | some .null => false
  | some (.bool b) => b
  | some (.num q) => decide (q ≠ 0)
  | some (.str s) => decide (s ≠ "")
  | some (.arr _) => true
  | some (.obj _) => true

/-- The validation block of the AI route on a parsed reply: `score` must be
a number in [1, 10], `reasons` and `riskFactors` must be arrays, and
`prediction`, `bottomFishing`, `priceTarget` must be truthy; any failed
check throws into the catch block. -/
def validAdvisory (j : Json) : Bool :=
  (match j.get "score" with
   | some (.num q) => decide (1 ≤ q) && decide (q ≤ 10)
   | _ => false) &&
  (match j.get "reasons" with
   | some (.arr _) => true
   | _ => false) &&
  (match j.get "riskFactors" with
   | some (.arr _) => true
   | _ => false) &&
  truthy (j.get "prediction") &&
  truthy (j.get "bottomFishing") &&
  truthy (j.get "priceTarget")

/-- The fixed neutral fallback analysis object built in the catch block of
the AI route, as a function of the current stock price. -/
def fallbackAnalysis (currentPrice : ℚ) : Json :=
  .obj
    [ ("score", .num 5),
      ("prediction", .str "HOLD"),
      ("confidence", .num 50),
      ("reasons", .arr
        [ .str "Unable to fully analyze at this moment",
          .str "Data suggests a neutral position",
          .str "Consider additional research before investing" ]),
      ("bottomFishing", .obj
        [ ("recommended", .bool false),
          ("targetPrice", .num (currentPrice * (95 / 100))),
          ("timing", .str "Wait for pullback"),
          ("rationale", .str "Consider entry at lower price levels") ]),
      ("priceTarget", .obj
        [ ("expectedRise", .num 0),
          ("targetPrice", .num currentPrice),
          ("timeframe", .str "Unknown"),
          ("exitStrategy", .str "Monitor and reassess based on market conditions") ]),
      ("riskFactors", .arr
        [ .str "Monitor price volatility and volume",
          .str "Watch for upcoming earnings reports",
          .str "Track overall market conditions" ]) ]

/-- The parse-and-validate step of the AI route: the argument is the outcome
of `JSON.parse` on the (fence-stripped) reply text, with `none` embedding a
parse exception; any parse or validation failure is replaced by the fixed
fallback analysis, so the step is total and never re-throws. -/
def parseAdvisory (reply : Option Json) (currentPrice : ℚ) : Json :=
  match reply with
  | none => fallbackAnalysis currentPrice
  | some j => if validAdvisory j then j else fallbackAnalysis currentPrice

/-- The defect classes named by the specification for an advisory reply:
malformed JSON, a score that is not a number in [1, 10], `reasons` or
`riskFactors` not an array, or a missing `prediction`, `bottomFishing` or
`priceTarget` key. -/
def badReply (reply : Option Json) : Prop :=
  reply = none ∨
  ∃ j, reply = some j ∧
    ((¬ ∃ q : ℚ, j.get "score" = some (.num q) ∧ 1 ≤ q ∧ q ≤ 10) ∨
     (∀ xs, j.get "reasons" ≠ some (.arr xs)) ∨
     (∀ xs, j.get "riskFactors" ≠ some (.arr xs)) ∨
     j.get "prediction" = none ∨
     j.get "bottomFishing" = none ∨
     j.get "priceTarget" = none)

/-! ## Theorems -/

/-- Claim C2: the RSI signal classification is the step function evaluated
in source precedence order, yielding Overbought at values at least 70,
Bullish at values in [60, 70), Oversold at values at most 30, Bearish at
values in (30, 40], and Neutral on (40, 60) — the asymmetric 70/60 versus
30/40 thresholds exactly as coded. -/
theorem getRSISignal_step (v : ℚ) :
    (70 ≤ v → getRSISignal v = .Overbought) ∧
    (60 ≤ v → v < 70 → getRSISignal v = .Bullish) ∧
    (v ≤ 30 → getRSISignal v = .Oversold) ∧
    (30 < v → v ≤ 40 → getRSISignal v = .Bearish) ∧
    (40 < v → v < 60 → getRSISignal v = .Neutral) := by
  unfold getRSISignal
  refine ⟨?_, ?_, ?_, ?_, ?_⟩ <;> intros <;> split_ifs <;>
    first
    | rfl
    | linarith

/-- Witness for C2: one concrete value in each band, the boundary values
included. -/
theorem getRSISignal_step_witness :
    getRSISignal 70 = .Overbought ∧ getRSISignal 60 = .Bullish ∧
    getRSISignal 30 = .Oversold ∧ getRSISignal 40 = .Bearish ∧
    getRSISignal 50 = .Neutral :=
  ⟨(getRSISignal_step 70).1 (by norm_num),
   (getRSISignal_step 60).2.1 (by norm_num) (by norm_num),
   (getRSISignal_step 30).2.2.1 (by norm_num),
   (getRSISignal_step 40).2.2.2.1 (by norm_num) (by norm_num),
   (getRSISignal_step 50).2.2.2.2 (by norm_num) (by norm_num)⟩

/-- Claim C4: trend classification is a total function of the Sharpe ratio:
bullish exactly above 0.5, bearish exactly below 0, neutral on [0, 0.5];
in particular 0.5 and 0 map to neutral. -/
theorem determineTrend_total (s : ℝ) :
    (determineTrend s = .bullish ↔ 0.5 < s) ∧
    (determineTrend s = .bearish ↔ s < 0) ∧
    (determineTrend s = .neutral ↔ 0 ≤ s ∧ s ≤ 0.5) ∧
    determineTrend 0.5 = .neutral ∧
    determineTrend 0 = .neutral := by
  have hcase : ∀ x : ℝ, determineTrend x =
      if 0.5 < x then .bullish else if x < 0 then .bearish else .neutral :=
    fun x => rfl
  refine ⟨?_, ?_, ?_, ?_, ?_⟩
  · constructor
    · intro h
      rw [hcase] at h
      split_ifs at h with h1 h2
      exact h1
    · intro h
      rw [hcase, if_pos h]
  · constructor
    · intro h
      rw [hcase] at h
      split_ifs at h with h1 h2
      exact h2
    · intro h
      rw [hcase, if_neg (by linarith), if_pos h]
  · constructor
    · intro h
      rw [hcase] at h
      split_ifs at h with h1 h2
      exact ⟨le_of_not_lt h2, le_of_not_lt h1⟩
    · rintro ⟨h0, h1⟩
      rw [hcase, if_neg (by linarith), if_neg (by linarith)]
  · rw [hcase, if_neg (by norm_num), if_neg (by norm_num)]
  · rw [hcase, if_neg (by norm_num), if_neg (by norm_num)]

/-- Claim C10: the amount validator coerces a NaN parse, a negative value,
or a value above 999999999 to 0, and otherwise rounds to 2 decimals. -/
theorem validateAmount_total :
    validateAmount none = 0 ∧
    (∀ q : ℚ, q < 0 → validateAmount (some q) = 0) ∧
    (∀ q : ℚ, 999999999 < q → validateAmount (some q) = 0) ∧
    (∀ q : ℚ, 0 ≤ q → q ≤ 999999999 → validateAmount (some q) = round2q q) := by
  refine ⟨rfl, ?_, ?_, ?_⟩
  · intro q h
    show (if q < 0 ∨ 999999999 < q then 0 else round2q q) = 0
    rw [if_pos (Or.inl h)]
  · intro q h
    show (if q < 0 ∨ 999999999 < q then 0 else round2q q) = 0
    rw [if_pos (Or.inr h)]
  · intro q h0 h1
    show (if q < 0 ∨ 999999999 < q then 0 else round2q q) = round2q q
    rw [if_neg (not_or.mpr ⟨not_lt.mpr h0, not_lt.mpr h1⟩)]

/-- Witness for C10: a negative amount, an amount above the cap, and an
in-range amount with more than 2 decimals. -/
theorem validateAmount_total_witness :
    validateAmount (some (-5)) = 0 ∧
    validateAmount (some 1000000000) = 0 ∧
    validateAmount (some (637 / 200)) = round2q (637 / 200) :=
  ⟨validateAmount_total.2.1 (-5) (by norm_num),
   validateAmount_total.2.2.1 1000000000 (by norm_num),
   validateAmount_total.2.2.2 (637 / 200) (by norm_num) (by norm_num)⟩

/-- Claim C9: a cache read returns the stored value exactly when
`now - timestamp < TTL` (otherwise the stored value is ignored), a cache
write unconditionally overwrites the entry with a fresh timestamp, and
consequently a second request for the same key within the TTL window
returns the identical cached value and issues no second upstream fetch. -/
theorem cache_contract :
    (∀ (α : Type) (c : Cache α) (key : String) (ttl now : ℕ) (v : α) (ts : ℕ),
      c key = some (v, ts) →
      (getCachedData c key ttl now = some v ↔ now - ts < ttl)) ∧
    (∀ (α : Type) (c : Cache α) (key : String) (ttl now : ℕ) (v : α) (ts : ℕ),
      c key = some (v, ts) → ¬ now - ts < ttl →
      getCachedData c key ttl now = none) ∧
    (∀ (α : Type) (c : Cache α) (key : String) (v : α) (now : ℕ),
      setCachedData c key v now key = some (v, now)) ∧
    (∀ (α : Type) (c : Cache α) (key : String) (ttl t1 t2 : ℕ) (up1 up2 : α),
      c key = none → t2 - t1 < ttl →
      (cachedFetch c key ttl t1 up1).1 = up1 ∧
      (cachedFetch c key ttl t1 up1).2.1 = true ∧
      (cachedFetch (cachedFetch c key ttl t1 up1).2.2 key ttl t2 up2).1 = up1 ∧
      (cachedFetch (cachedFetch c key ttl t1 up1).2.2 key ttl t2 up2).2.1 = false) := by
  have hget : ∀ (α : Type) (c : Cache α) (key : String) (ttl now : ℕ) (v : α) (ts : ℕ),
      c key = some (v, ts) →
      getCachedData c key ttl now = if now - ts < ttl then some v else none := by
    intro α c key ttl now v ts h
    unfold getCachedData
    rw [h]
  refine ⟨?_, ?_, ?_, ?_⟩
  · intro α c key ttl now v ts h
    rw [hget α c key ttl now v ts h]
    split_ifs with hlt
    · simp [hlt]
    · simp [hlt]
  · intro α c key ttl now v ts h hge
    rw [hget α c key ttl now v ts h, if_neg hge]
  · intro α c key v now
    unfold setCachedData
    rw [if_pos rfl]
  · intro α c key ttl t1 t2 up1 up2 hnone hwin
    have hmiss : getCachedData c key ttl t1 = none := by
      unfold getCachedData
      rw [hnone]
    have h1 : cachedFetch c key ttl t1 up1 =
        (up1, true, setCachedData c key up1 t1) := by
      unfold cachedFetch
      rw [hmiss]
    have hentry : setCachedData c key up1 t1 key = some (up1, t1) := by
      unfold setCachedData
      rw [if_pos rfl]
    have hhit : getCachedData (setCachedData c key up1 t1) key ttl t2 = some up1 := by
      rw [hget α _ key ttl t2 up1 t1 hentry, if_pos hwin]
    have h2 : cachedFetch (setCachedData c key up1 t1) key ttl t2 up2 =
        (up1, false, setCachedData c key up1 t1) := by
      unfold cachedFetch
      rw [hhit]
    rw [h1]
    exact ⟨rfl, rfl, by rw [h2], by rw [h2]⟩

/-- Witness for C9: a concrete hit, a concrete expiry miss, a concrete
overwrite, and a concrete fetch-then-hit sequence on rational data. -/
theorem cache_contract_witness :
    (getCachedData (setCachedData (cacheEmpty ℚ) "AAPL" 7 0) "AAPL" 300000 1000 =
      some 7 ↔ (1000 - 0 < 300000)) ∧
    getCachedData (setCachedData (cacheEmpty ℚ) "AAPL" 7 0) "AAPL" 300000 400000 = none ∧
    setCachedData (cacheEmpty ℚ) "AAPL" 7 0 "AAPL" = some (7, 0) ∧
    (cachedFetch (cacheEmpty ℚ) "AAPL" 300000 0 7).1 = 7 ∧
    (cachedFetch (cachedFetch (cacheEmpty ℚ) "AAPL" 300000 0 7).2.2 "AAPL" 300000 1000 9).1 = 7 ∧
    (cachedFetch (cachedFetch (cacheEmpty ℚ) "AAPL" 300000 0 7).2.2 "AAPL" 300000 1000 9).2.1 = false := by
  have hentry : setCachedData (cacheEmpty ℚ) "AAPL" 7 0 "AAPL" = some (7, 0) := by
    unfold setCachedData
    rw [if_pos rfl]
  have hseq := cache_contract.2.2.2 ℚ (cacheEmpty ℚ) "AAPL" 300000 0 1000 7 9 rfl
    (by norm_num)
  exact ⟨cache_contract.1 ℚ _ "AAPL" 300000 1000 7 0 hentry,
    cache_contract.2.1 ℚ _ "AAPL" 300000 400000 7 0 hentry (by norm_num),
    cache_contract.2.2.1 ℚ (cacheEmpty ℚ) "AAPL" 7 0,
    hseq.1, hseq.2.2.1, hseq.2.2.2⟩

/-- Uppercasing an allowed symbol character never yields whitespace, so the
trailing `trim` of `validateSymbol` has nothing to remove. -/
theorem upperChar_not_ws (c : Char) (h : allowedChar c = true) :
    isWsChar (upperChar c) = false := by
  unfold allowedChar at h
  simp only [Bool.or_eq_true, Bool.and_eq_true, decide_eq_true_eq,
    beq_iff_eq] at h
  unfold upperChar isWsChar
  split_ifs with hl
  · have hv : (c.toNat - 32).isValidChar := Or.inl (by omega)
    have htn : (Char.ofNat (c.toNat - 32)).toNat = c.toNat - 32 := by
      unfold Char.ofNat
      rw [dif_pos hv]
      simp only [Char.ofNatAux, Char.toNat, UInt32.toNat, BitVec.toNat_ofNatLt]
    rw [htn]
    simp only [Bool.or_eq_false_iff, beq_eq_false_iff_ne, ne_eq]
    omega
  · simp only [Bool.or_eq_false_iff, beq_eq_false_iff_ne, ne_eq]
    omega

/-- `dropWhile` is the identity when the predicate fails on every element. -/
theorem dropWhile_id_of_all_false {p : Char → Bool} :
    ∀ l : List Char, (∀ c ∈ l, p c = false) → l.dropWhile p = l := by
  intro l h
  cases l with
  | nil => rfl
  | cons a t =>
    rw [List.dropWhile_cons, h a (by simp)]
    simp

/-- `trimList` is the identity on lists without whitespace. -/
theorem trimList_id (l : List Char) (h : ∀ c ∈ l, isWsChar c = false) :
    trimList l = l := by
  unfold trimList
  rw [dropWhile_id_of_all_false l h,
    dropWhile_id_of_all_false l.reverse
      (fun c hc => h c (List.mem_reverse.mp hc)),
    List.reverse_reverse]

/-- Claim C7: `validateSymbol` keeps exactly the characters in
`[a-zA-Z0-9.-]`, uppercases them, and returns the result precisely when its
length lies in 1..10; in particular a padded lowercase ticker is normalized,
an all-symbol input is rejected as empty, and an 11-character alphanumeric
input is rejected as too long. -/
theorem validateSymbol_normalizes :
    (∀ s : String,
      validateSymbol s =
        (let t := (s.data.filter allowedChar).map upperChar
         if 1 ≤ t.length ∧ t.length ≤ 10 then some (String.mk t) else none)) ∧
    validateSymbol "aapl " = some "AAPL" ∧
    validateSymbol "$$$" = none ∧
    validateSymbol "ABCDEFGHIJK" = none := by
  refine ⟨?_, by decide, by decide, by decide⟩
  intro s
  have hnows : ∀ c ∈ (s.data.filter allowedChar).map upperChar,
      isWsChar c = false := by
    intro c hc
    obtain ⟨c0, hc0, rfl⟩ := List.mem_map.mp hc
    exact upperChar_not_ws c0 (List.of_mem_filter hc0)
  have htrim := trimList_id _ hnows
  unfold validateSymbol
  by_cases hs : s = ""
  · subst hs
    decide
  · rw [if_neg hs]
    simp only [htrim]
    split_ifs with h1 h2
    · omega
    · rfl
    · rfl
    · omega

/-- The simultaneous fold of the RSI loop is the pair of the two
specification-side Wilder smoothings. -/
theorem foldl_zip_wilderStep (period : ℕ) :
    ∀ (xs ys : List ℚ) (a b : ℚ), xs.length = ys.length →
      (List.zip xs ys).foldl (wilderStep period) (a, b) =
        (wilderSmooth period a xs, wilderSmooth period b ys) := by
  intro xs
  induction xs with
  | nil =>
    intro ys a b h
    cases ys with
    | nil => simp [wilderSmooth]
    | cons y ys => simp at h
  | cons x xs ih =>
    intro ys a b h
    cases ys with
    | nil => simp at h
    | cons y ys =>
      rw [List.zip_cons_cons, List.foldl_cons]
      rw [ih ys _ _ (by simpa using h)]
      rfl

/-- The first-difference list is one shorter than the price list. -/
theorem priceChanges_length (l : List ℚ) :
    (priceChanges l).length = l.length - 1 := by
  unfold priceChanges
  rw [List.length_zipWith]
  cases l with
  | nil => simp
  | cons a t => simp

/-- Unconditional description of `calculateRSI` on long-enough input: the
final averages are exactly the specification-side seeded Wilder smoothings
of the gain and loss series. -/
theorem calculateRSI_eq (cs : List ℚ) (h : ¬ cs.length < 15) :
    calculateRSI cs 14 =
      (if specAvg 14 (lossesOf (priceChanges cs)) = 0 then some 100
       else some (round2q (100 - 100 /
         (1 + specAvg 14 (gainsOf (priceChanges cs)) /
           specAvg 14 (lossesOf (priceChanges cs)))))) := by
  have hc : (priceChanges cs).length = cs.length - 1 := priceChanges_length cs
  have hg : (gainsOf (priceChanges cs)).length = cs.length - 1 := by
    rw [gainsOf, List.length_map, hc]
  have hl : (lossesOf (priceChanges cs)).length = cs.length - 1 := by
    rw [lossesOf, List.length_map, hc]
  have hdrop : ((gainsOf (priceChanges cs)).drop 14).length =
      ((lossesOf (priceChanges cs)).drop 14).length := by
    rw [List.length_drop, List.length_drop, hg, hl]
  have htg : ((gainsOf (priceChanges cs)).take 14).length = 14 := by
    rw [List.length_take]
    omega
  have htl : ((lossesOf (priceChanges cs)).take 14).length = 14 := by
    rw [List.length_take]
    omega
  simp only [calculateRSI]
  rw [if_neg (by omega : ¬ cs.length < 14 + 1)]
  rw [foldl_zip_wilderStep 14 _ _ _ _ hdrop]
  unfold specAvg simpleMean
  rw [htg, htl]

/-- Claim C1: for period 14, `calculateRSI` returns the unavailable result
on any series shorter than 15 closes, and otherwise seeds the averages with
the simple mean of the first 14 gains and losses, smooths every subsequent
difference with the Wilder recurrence, returns exactly 100 when the final
average loss is 0, and else returns 100 - 100/(1 + avgGain/avgLoss) rounded
to 2 decimals. -/
theorem calculateRSI_spec (cs : List ℚ) :
    (cs.length < 15 → calculateRSI cs 14 = none) ∧
    (15 ≤ cs.length →
      calculateRSI cs 14 =
        (if specAvg 14 (lossesOf (priceChanges cs)) = 0 then some 100
         else some (round2q (100 - 100 /
           (1 + specAvg 14 (gainsOf (priceChanges cs)) /
             specAvg 14 (lossesOf (priceChanges cs))))))) := by
  constructor
  · intro h
    simp only [calculateRSI]
    rw [if_pos (by omega : cs.length < 14 + 1)]
  · intro h
    exact calculateRSI_eq cs (by omega)

/-- Witness for C1: a 1-point series is unavailable, and a strictly
increasing 15-point series has zero average loss, hence RSI exactly 100. -/
theorem calculateRSI_spec_witness :
    calculateRSI [1] 14 = none ∧
    calculateRSI [1, 2, 3, 4, 5, 6, 7, 8, 9, 10, 11, 12, 13, 14, 15] 14 =
      some 100 :=
  ⟨(calculateRSI_spec [1]).1 (by norm_num),
   ((calculateRSI_spec [1, 2, 3, 4, 5, 6, 7, 8, 9, 10, 11, 12, 13, 14, 15]).2
     (by norm_num)).trans
     (by norm_num [priceChanges, lossesOf, specAvg, simpleMean, wilderSmooth])⟩

/-- The daily-return list is one shorter than the price list. -/
theorem dailyReturns_length (l : List ℝ) :
    (dailyReturns l).length = l.length - 1 := by
  unfold dailyReturns
  rw [List.length_zipWith]
  cases l with
  | nil => simp
  | cons a t => simp

/-- Claim C3: the Sharpe ratio is 0 for series of fewer than 2 prices and
for series whose daily returns have zero population standard deviation, and
otherwise equals the mean daily return minus the 0.0002 risk-free rate over
the population standard deviation (divide by N, not N - 1), annualized by
the square root of 252 and rounded to 2 decimals. -/
theorem calculateSharpeRatio_spec (prices : List ℝ) :
    (prices.length < 2 → calculateSharpeRatio prices = 0) ∧
    (2 ≤ prices.length → popStdDev (dailyReturns prices) = 0 →
      calculateSharpeRatio prices = 0) ∧
    (2 ≤ prices.length → popStdDev (dailyReturns prices) ≠ 0 →
      calculateSharpeRatio prices =
        round2r ((specMean (dailyReturns prices) - 0.0002) /
          popStdDev (dailyReturns prices) * Real.sqrt 252)) := by
  have hlen : (dailyReturns prices).length = prices.length - 1 :=
    dailyReturns_length prices
  refine ⟨?_, ?_, ?_⟩
  · intro h
    simp only [calculateSharpeRatio]
    rw [if_pos h]
  · intro h hsd
    simp only [calculateSharpeRatio]
    rw [if_neg (by omega)]
    rw [if_neg (by omega)]
    rw [if_pos]
    show Real.sqrt _ = 0
    unfold popStdDev popVariance specMean at hsd
    exact hsd
  · intro h hsd
    simp only [calculateSharpeRatio]
    rw [if_neg (by omega)]
    rw [if_neg (by omega)]
    rw [if_neg]
    · rfl
    · show ¬ Real.sqrt _ = 0
      unfold popStdDev popVariance specMean at hsd
      exact hsd

/-- Witness for C3: a 1-point series, a flat 2-point series (zero variance)
and a 3-point series with nonzero variance. -/
theorem calculateSharpeRatio_spec_witness :
    calculateSharpeRatio [1] = 0 ∧
    calculateSharpeRatio [1, 1] = 0 ∧
    calculateSharpeRatio [1, 2, 1] =
      round2r ((specMean (dailyReturns [1, 2, 1]) - 0.0002) /
        popStdDev (dailyReturns [1, 2, 1]) * Real.sqrt 252) := by
  have hr2 : dailyReturns [1, 1] = [0] := by
    norm_num [dailyReturns]
  have hr3 : dailyReturns [(1 : ℝ), 2, 1] = [1, -(1 / 2)] := by
    norm_num [dailyReturns]
  have hv3 : popVariance [(1 : ℝ), -(1 / 2)] = 9 / 16 := by
    norm_num [popVariance, specMean]
  refine ⟨(calculateSharpeRatio_spec [1]).1 (by norm_num), ?_, ?_⟩
  · refine (calculateSharpeRatio_spec [1, 1]).2.1 (by norm_num) ?_
    rw [popStdDev, hr2]
    have : popVariance [(0 : ℝ)] = 0 := by
      norm_num [popVariance, specMean]
    rw [this, Real.sqrt_zero]
  · refine (calculateSharpeRatio_spec [1, 2, 1]).2.2 (by norm_num) ?_
    rw [popStdDev, hr3, hv3]
    rw [Real.sqrt_ne_zero']
    norm_num

/-- The map update is visible at the updated key. -/
theorem rateMapSet_same (m : RateMap) (ip : String) (e : RateEntry) :
    rateMapSet m ip e ip = some e := by
  unfold rateMapSet
  rw [if_pos rfl]

/-- Invariant of one fixed window: starting from an entry with count `c`
(between 1 and the limit) and reset time `rt`, calls at times not past `rt`
are admitted exactly while the count stays below the limit, and the count
saturates at the limit. -/
theorem runCalls_in_window (ip : String) (rt : ℕ) :
    ∀ (ts : List ℕ) (m : RateMap) (c : ℕ),
      m ip = some ⟨c, rt⟩ → 1 ≤ c → c ≤ rateLimitMax →
      (∀ t ∈ ts, t ≤ rt) →
      (runCalls m ip ts).1 =
        (List.range ts.length).map (fun n => decide (c + n < rateLimitMax)) ∧
      (runCalls m ip ts).2 ip = some ⟨min (c + ts.length) rateLimitMax, rt⟩ := by
  intro ts
  induction ts with
  | nil =>
    intro m c hm h1 hmax _
    refine ⟨rfl, ?_⟩
    show m ip = _
    rw [hm]
    simp only [List.length_nil, Nat.add_zero]
    congr 2
    omega
  | cons t ts ih =>
    intro m c hm h1 hmax hts
    have hnotpast : ¬ rt < t := not_lt.mpr (hts t (by simp))
    by_cases hfull : rateLimitMax ≤ c
    · have hstep : checkRateLimit m ip t = (false, m) := by
        unfold checkRateLimit
        rw [hm]
        simp only [if_neg hnotpast, if_pos hfull]
      have hrest := ih m c hm h1 hmax (fun u hu => hts u (by simp [hu]))
      simp only [runCalls, hstep, List.length_cons]
      constructor
      · rw [List.range_succ_eq_map, List.map_cons, List.map_map, hrest.1]
        congr 1
        · symm
          simp only [decide_eq_false_iff_not]
          omega
        · refine List.map_congr_left ?_
          intro n _
          simp only [Function.comp_apply]
          rw [decide_eq_decide]
          constructor <;> intro <;> omega
      · rw [hrest.2]
        congr 2
        omega
    · have hstep : checkRateLimit m ip t =
          (true, rateMapSet m ip ⟨c + 1, rt⟩) := by
        unfold checkRateLimit
        rw [hm]
        simp only [if_neg hnotpast, if_neg hfull]
      have hrest := ih (rateMapSet m ip ⟨c + 1, rt⟩) (c + 1)
        (rateMapSet_same m ip _) (by omega) (by omega)
        (fun u hu => hts u (by simp [hu]))
      simp only [runCalls, hstep, List.length_cons]
      constructor
      · rw [List.range_succ_eq_map, List.map_cons, List.map_map, hrest.1]
        congr 1
        · symm
          simp only [decide_eq_true_eq]
          omega
        · refine List.map_congr_left ?_
          intro n _
          simp only [Function.comp_apply]
          rw [decide_eq_decide]
          constructor <;> intro <;> omega
      · rw [hrest.2]
        congr 2
        omega

/-- Claim C5: starting with no entry for a client, a call at `t0` opens a
window with reset time `t0 + RATE_WINDOW`; among the calls of that window
exactly the first `RATE_LIMIT` (30) are admitted — the call with index
`RATE_LIMIT` (the 31st) is rejected — and a call after the reset time is
admitted again with a fresh window of count 1. -/
theorem rateLimit_spec (ip : String) (t0 : ℕ) (ts : List ℕ) (m : RateMap)
    (hm : m ip = none) (hts : ∀ t ∈ ts, t ≤ t0 + rateWindow)
    (tLater : ℕ) (hlater : t0 + rateWindow < tLater) :
    (runCalls m ip (t0 :: ts)).1 =
      (List.range (ts.length + 1)).map (fun n => decide (n < rateLimitMax)) ∧
    (checkRateLimit (runCalls m ip (t0 :: ts)).2 ip tLater).1 = true ∧
    (checkRateLimit (runCalls m ip (t0 :: ts)).2 ip tLater).2 ip =
      some ⟨1, tLater + rateWindow⟩ := by
  have hstep : checkRateLimit m ip t0 =
      (true, rateMapSet m ip ⟨1, t0 + rateWindow⟩) := by
    unfold checkRateLimit
    rw [hm]
  have hrest := runCalls_in_window ip (t0 + rateWindow) ts
    (rateMapSet m ip ⟨1, t0 + rateWindow⟩) 1 (rateMapSet_same m ip _)
    le_rfl (by norm_num [rateLimitMax]) hts
  have h2 : checkRateLimit
      (runCalls (rateMapSet m ip ⟨1, t0 + rateWindow⟩) ip ts).2 ip tLater =
      (true, rateMapSet
        (runCalls (rateMapSet m ip ⟨1, t0 + rateWindow⟩) ip ts).2 ip
        ⟨1, tLater + rateWindow⟩) := by
    unfold checkRateLimit
    simp only [hrest.2]
    rw [if_pos hlater]
  simp only [runCalls, hstep]
  refine ⟨?_, ?_, ?_⟩
  · rw [List.range_succ_eq_map, List.map_cons, List.map_map, hrest.1]
    congr 1
    refine List.map_congr_left ?_
    intro n _
    simp only [Function.comp_apply]
    rw [decide_eq_decide]
    constructor <;> intro <;> omega
  · rw [h2]
  · rw [h2]
    exact rateMapSet_same _ _ _

/-- Witness for C5: 31 calls inside one window from a fresh client (the
first 30 admitted, the 31st rejected), then one call after the window. -/
theorem rateLimit_spec_witness :
    (runCalls rateMapEmpty "client" (0 :: List.replicate 30 60000)).1 =
      (List.range 31).map (fun n => decide (n < rateLimitMax)) ∧
    (checkRateLimit (runCalls rateMapEmpty "client"
      (0 :: List.replicate 30 60000)).2 "client" 70000).1 = true ∧
    (checkRateLimit (runCalls rateMapEmpty "client"
      (0 :: List.replicate 30 60000)).2 "client" 70000).2 "client" =
      some ⟨1, 70000 + rateWindow⟩ := by
  obtain ⟨h1, h2, h3⟩ := rateLimit_spec "client" 0 (List.replicate 30 60000)
    rateMapEmpty rfl
    (by
      intro t ht
      rw [List.eq_of_mem_replicate ht]
      norm_num [rateWindow])
    70000 (by norm_num [rateWindow])
  refine ⟨?_, h2, h3⟩
  rw [h1]
  simp

/-- The score check of the validation block succeeds exactly on a numeric
score in [1, 10]. -/
theorem score_check_iff (o : Option Json) :
    (match o with
     | some (.num q) => decide (1 ≤ q) && decide (q ≤ 10)
     | _ => false) = true ↔
      ∃ q : ℚ, o = some (.num q) ∧ 1 ≤ q ∧ q ≤ 10 := by
  rcases o with _ | j
  · simp
  · cases j <;> simp

/-- The array check of the validation block succeeds exactly on an array. -/
theorem arr_check_iff (o : Option Json) :
    (match o with
     | some (.arr _) => true
     | _ => false) = true ↔ ∃ xs, o = some (.arr xs) := by
  rcases o with _ | j
  · simp
  · cases j <;> simp

/-- Claim C6: an advisory reply that is malformed JSON, or whose score is
not a number in [1, 10], or whose reasons or riskFactors is not an array,
or which lacks prediction, bottomFishing or priceTarget, is replaced by the
fixed neutral fallback analysis — score 5, prediction HOLD, confidence 50,
bottom-fishing target price 95% of the current price — and no parse
exception escapes (the embedded step is a total function). -/
theorem aiFallback_spec (reply : Option Json) (currentPrice : ℚ)
    (h : badReply reply) :
    parseAdvisory reply currentPrice = fallbackAnalysis currentPrice ∧
    (fallbackAnalysis currentPrice).get "score" = some (.num 5) ∧
    (fallbackAnalysis currentPrice).get "prediction" = some (.str "HOLD") ∧
    (fallbackAnalysis currentPrice).get "confidence" = some (.num 50) ∧
    (((fallbackAnalysis currentPrice).get "bottomFishing").map
      (fun b => b.get "targetPrice")) =
      some (some (.num (currentPrice * (95 / 100)))) := by
  refine ⟨?_, rfl, rfl, rfl, rfl⟩
  rcases h with hnone | ⟨j, rfl, hdef⟩
  · subst hnone
    rfl
  · have hv : ¬ validAdvisory j = true := by
      intro hval
      unfold validAdvisory at hval
      simp only [Bool.and_eq_true] at hval
      obtain ⟨⟨⟨⟨⟨hscore, hreasons⟩, hrisk⟩, hpred⟩, hbottom⟩, htarget⟩ := hval
      rcases hdef with hs | hr | hk | hp | hb | ht
      · exact hs (score_check_iff _ |>.mp hscore)
      · obtain ⟨xs, hxs⟩ := arr_check_iff _ |>.mp hreasons
        exact hr xs hxs
      · obtain ⟨xs, hxs⟩ := arr_check_iff _ |>.mp hrisk
        exact hk xs hxs
      · rw [hp] at hpred
        simp [truthy] at hpred
      · rw [hb] at hbottom
        simp [truthy] at hbottom
      · rw [ht] at htarget
        simp [truthy] at htarget
    show (if validAdvisory j = true then j else fallbackAnalysis currentPrice) =
      fallbackAnalysis currentPrice
    rw [if_neg hv]

/-- Witness for C6: a reply that fails to parse at all, and a reply that
parses to a JSON string (so every schema check fails). -/
theorem aiFallback_spec_witness :
    parseAdvisory none 100 = fallbackAnalysis 100 ∧
    parseAdvisory (some (.str "no json here")) 100 = fallbackAnalysis 100 ∧
    (fallbackAnalysis 100).get "score" = some (.num 5) :=
  ⟨(aiFallback_spec none 100 (Or.inl rfl)).1,
   (aiFallback_spec (some (.str "no json here")) 100
     (Or.inr ⟨.str "no json here", rfl, Or.inr (Or.inr (Or.inr (Or.inl rfl)))⟩)).1,
   (aiFallback_spec none 100 (Or.inl rfl)).2.1⟩

/-- Rounding a value that is already an integer number of hundredths is the
identity. -/
theorem round2r_hundredths (z : ℤ) : round2r ((z : ℝ) / 100) = (z : ℝ) / 100 := by
  unfold round2r
  have harg : (z : ℝ) / 100 * 100 + 1 / 2 = (z : ℝ) + 1 / 2 := by
    ring
  rw [harg]
  have hfloor : ⌊(z : ℝ) + 1 / 2⌋ = z := by
    rw [Int.floor_eq_iff]
    constructor
    · linarith
    · linarith
  rw [hfloor]

/-- Counterexample to claim C8 as stated: the stock route rounds each field
independently from the raw values, so with raw current price 2.006 and raw
previous close 1.002 the stored fields read change 1.00 but
currentPrice - previousClose = 2.01 - 1.00 = 1.01. -/
theorem quoteInvariant_counterexample :
    ¬ ((buildStockData "AAPL" "Apple Inc." 2.006 1.002 [1, 1]).change =
       (buildStockData "AAPL" "Apple Inc." 2.006 1.002 [1, 1]).currentPrice -
       (buildStockData "AAPL" "Apple Inc." 2.006 1.002 [1, 1]).previousClose) := by
  have hch : (buildStockData "AAPL" "Apple Inc." 2.006 1.002 [1, 1]).change = 1 := by
    show round2r ((2.006 : ℝ) - 1.002) = 1
    unfold round2r
    norm_num
  have hcp : (buildStockData "AAPL" "Apple Inc." 2.006 1.002 [1, 1]).currentPrice =
      2.01 := by
    show round2r (2.006 : ℝ) = 2.01
    unfold round2r
    norm_num
  have hpc : (buildStockData "AAPL" "Apple Inc." 2.006 1.002 [1, 1]).previousClose =
      1 := by
    show round2r (1.002 : ℝ) = 1
    unfold round2r
    norm_num
  intro h
  rw [hch, hcp, hpc] at h
  norm_num at h

/-- Claim C8 (amended): every Quote record of the stock route stores the
2-decimal roundings of raw values that satisfy the invariant — stored
change is round2(rawCurrent - rawPrevious), stored changePercent is
round2((rawCurrent - rawPrevious)/rawPrevious*100) — and the trend field is
exactly `determineTrend` of the stored Sharpe ratio (also on the demo
path); the stored-field equation change = currentPrice - previousClose
holds whenever the raw inputs already carry at most 2 decimals, though not
in general. -/
theorem quoteInvariant_amended (symbol name : String)
    (currentPrice previousClose : ℝ) (closePrices : List ℝ) :
    (buildStockData symbol name currentPrice previousClose closePrices).currentPrice =
      round2r currentPrice ∧
    (buildStockData symbol name currentPrice previousClose closePrices).previousClose =
      round2r previousClose ∧
    (buildStockData symbol name currentPrice previousClose closePrices).change =
      round2r (currentPrice - previousClose) ∧
    (buildStockData symbol name currentPrice previousClose closePrices).changePercent =
      round2r ((currentPrice - previousClose) / previousClose * 100) ∧
    (buildStockData symbol name currentPrice previousClose closePrices).sharpeRatio =
      calculateSharpeRatio closePrices ∧
    (buildStockData symbol name currentPrice previousClose closePrices).trend =
      determineTrend
        ((buildStockData symbol name currentPrice previousClose closePrices).sharpeRatio) ∧
    (∀ ps : List ℝ, (generateDemoData symbol ps).trend =
      determineTrend ((generateDemoData symbol ps).sharpeRatio)) ∧
    ((∃ a : ℤ, currentPrice = (a : ℝ) / 100) →
     (∃ b : ℤ, previousClose = (b : ℝ) / 100) →
      (buildStockData symbol name currentPrice previousClose closePrices).change =
        (buildStockData symbol name currentPrice previousClose closePrices).currentPrice -
        (buildStockData symbol name currentPrice previousClose closePrices).previousClose) := by
  refine ⟨rfl, rfl, rfl, rfl, rfl, rfl, fun ps => rfl, ?_⟩
  rintro ⟨a, rfl⟩ ⟨b, rfl⟩
  show round2r ((a : ℝ) / 100 - (b : ℝ) / 100) =
    round2r ((a : ℝ) / 100) - round2r ((b : ℝ) / 100)
  have hdiff : (a : ℝ) / 100 - (b : ℝ) / 100 = ((a - b : ℤ) : ℝ) / 100 := by
    push_cast
    ring
  rw [hdiff, round2r_hundredths, round2r_hundredths, round2r_hundredths]
  push_cast
  ring

/-- Witness for the amended C8: raw inputs with exactly 2 decimals, where
the stored-field difference equation does hold. -/
theorem quoteInvariant_amended_witness :
    (buildStockData "AAPL" "Apple Inc." 3.14 2 [1, 1]).change =
      (buildStockData "AAPL" "Apple Inc." 3.14 2 [1, 1]).currentPrice -
      (buildStockData "AAPL" "Apple Inc." 3.14 2 [1, 1]).previousClose :=
  (quoteInvariant_amended "AAPL" "Apple Inc." 3.14 2 [1, 1]).2.2.2.2.2.2.2
    ⟨314, by norm_num⟩ ⟨200, by norm_num⟩

end Stocky
